import Mathlib

/-!
Verification development for the `bk` command-line utility
(`src/main.rs`): a reference tool that prints categorized Bash keyboard
shortcuts, optionally filtered by category flags, with a self-uninstall
action.

The Rust source is shallowly embedded: the static shortcut registry is
transcribed literally; the flag-driven category selection of `main` is a
pure function of the parsed flags; the table renderer is modelled at the
level of header line, row order and word-wrapped description cells; the
uninstall routine is modelled by explicit state passing over a small
filesystem/environment record.
-/

set_option autoImplicit false

namespace BK

/-- The parsed command-line flags, one field per flag, mirroring the
`Args` struct (src/main.rs lines 31-51).  Flags are independent
booleans, so the record is insensitive to the order in which flags were
written on the command line. -/
structure Args where
  movement : Bool
  edit : Bool
  «recall» : Bool
  process : Bool
  uninstall : Bool
deriving DecidableEq, Repr

/-- A keyboard shortcut: key combination plus description, mirroring the
`Shortcut` struct (src/main.rs lines 54-60). -/
structure Shortcut where
  key : String
  description : String
deriving DecidableEq, Repr

/-- `Shortcut::new` (src/main.rs lines 62-66). -/
def Shortcut.new (key description : String) : Shortcut :=
  { key := key, description := description }

/-- The registry type: `HashMap<&str, Vec<Shortcut>>` modelled as an
association list in insertion order (the program never iterates the map;
it only looks keys up, so only the key → value mapping matters). -/
abbrev Registry := List (String × List Shortcut)

/-- `init_shortcuts` (src/main.rs lines 69-164): the fixed registry,
transcribed literally in insertion order. -/
def init_shortcuts : Registry :=
  [ ("Movement",
      [ Shortcut.new "Ctrl+a" "Go to the beginning of the line (Home)",
        Shortcut.new "Ctrl+e" "Go to the End of the line (End)",
        Shortcut.new "Ctrl+f" "Forward one character (Right arrow)",
        Shortcut.new "Ctrl+b" "Backward one character (Left arrow)",
        Shortcut.new "Alt+f" "Forward (right) one word (Alt-Right arrow)",
        Shortcut.new "Alt+b" "Back (left) one word (Alt-Left arrow)",
        Shortcut.new "Ctrl+xx"
          "Toggle between the start of line and current cursor position" ]),
    ("Edit",
      [ Shortcut.new "Ctrl+l" "Clear the Screen, similar to the clear command",
        Shortcut.new "Alt+Del" "Delete the Word before the cursor",
        Shortcut.new "Alt+d" "Delete the Word after the cursor",
        Shortcut.new "Ctrl+d" "Delete character under the cursor",
        Shortcut.new "Ctrl+h" "Delete character before the cursor (Backspace)",
        Shortcut.new "Ctrl+w" "Cut the Word before the cursor to the clipboard",
        Shortcut.new "Ctrl+k" "Cut the Line after the cursor to the clipboard",
        Shortcut.new "Ctrl+u"
          "Cut/delete the Line before the cursor to the clipboard",
        Shortcut.new "Alt+t" "Swap current word with previous",
        Shortcut.new "Ctrl+t"
          "Swap the last two characters before the cursor (typo)",
        Shortcut.new "Esc+t" "Swap the last two words before the cursor",
        Shortcut.new "Ctrl+y" "Paste the last thing to be cut (yank)",
        Shortcut.new "Alt+u"
          "UPPER capitalize every character from the cursor to the end of the current word",
        Shortcut.new "Alt+l"
          "Lower the case of every character from the cursor to the end of the current word",
        Shortcut.new "Alt+c"
          "Capitalize the character under the cursor and move to the end of the word",
        Shortcut.new "Alt+r"
          "Cancel the changes and put back the line as it was in the history (revert)",
        Shortcut.new "Ctrl+_" "Undo",
        Shortcut.new "Tab" "Tab completion for file/directory names" ]),
    ("History",
      [ Shortcut.new "Ctrl+r"
          "Recall the last command including the specified character(s). Search the command history as you type",
        Shortcut.new "Ctrl+p" "Previous command in history (walk back)",
        Shortcut.new "Ctrl+n" "Next command in history (walk forward)",
        Shortcut.new "Ctrl+s" "Go back to the next most recent command",
        Shortcut.new "Ctrl+o" "Execute the command found via Ctrl+r or Ctrl+s",
        Shortcut.new "Ctrl+g" "Escape from history searching mode",
        Shortcut.new "!!" "Repeat last command",
        Shortcut.new "!n"
          "Repeat from the last command: args n e.g. !:2 for the second argument",
        Shortcut.new "!n:m"
          "Repeat from the last command: args from n to m. e.g. !:2-3 for the second and third",
        Shortcut.new "!n:$"
          "Repeat from the last command: args n to the last argument",
        Shortcut.new "!n:p" "Print last command starting with n",
        Shortcut.new "!string" "Print the last command beginning with string",
        Shortcut.new "!:q"
          "Quote the last command with proper Bash escaping applied",
        Shortcut.new "!$" "Last argument of previous command",
        Shortcut.new "Alt+." "Last argument of previous command",
        Shortcut.new "!*" "All arguments of previous command",
        Shortcut.new "^abc^def" "Run previous command, replacing abc with def" ]),
    ("Process",
      [ Shortcut.new "Ctrl+c" "Interrupt/Kill whatever you are running (SIGINT)",
        Shortcut.new "Ctrl+l" "Clear the screen",
        Shortcut.new "Ctrl+s"
          "Stop output to the screen (for long running verbose commands). Then use PgUp/PgDn for navigation",
        Shortcut.new "Ctrl+q"
          "Allow output to the screen (if previously stopped using command above)",
        Shortcut.new "Ctrl+d"
          "Send an EOF marker, unless disabled by an option, this will close the current shell (EXIT)",
        Shortcut.new "Ctrl+z"
          "Send the signal SIGTSTP to the current task, which suspends it. To return to it later enter 'fg process name' (foreground)" ]) ]

/-! ### Table rendering -/

/-- Modelled from the spec: the words of a description cell, as split by
the wrapper.  The external `tabled` crate (not under `src/`) performs
the actual wrapping; per the spec the description column "must wrap long
text at a fixed width without breaking words", so the cell text is
treated as a sequence of space-separated words. -/
def wordsOf (s : String) : List String :=
  (s.splitOn " ").filter (fun w => w ≠ "")

/-- Rendered length of one wrapped line: the word lengths plus one
separating space between adjacent words. -/
def lineLen (l : List String) : Nat :=
  (l.map String.length).sum + (l.length - 1)

/-- Modelled from the spec: greedy word-wrapping loop of the external
`tabled` crate's `Wrap::new(width).keep_words(true)` (not under `src/`).
`cur` is the nonempty current line, `curLen` its rendered length; a word
is appended to the current line when it still fits in `width`, otherwise
it starts a new line.  Words are never split. -/
def wrapGo (width : Nat) (cur : List String) (curLen : Nat) :
    List String → List (List String)
  | [] => [cur]
  | w :: ws =>
    if curLen + 1 + w.length ≤ width then
      wrapGo width (cur ++ [w]) (curLen + 1 + w.length) ws
    else
      cur :: wrapGo width [w] w.length ws

/-- Modelled from the spec: word-wrap a word sequence at `width` without
breaking words (the `tabled` crate's `Wrap::keep_words`, not under
`src/`). -/
def wrapWords (width : Nat) : List String → List (List String)
  | [] => []
  | w :: ws => wrapGo width [w] w.length ws

/-- Wrap a description cell at `width`, yielding the cell's lines. -/
def wrapLines (width : Nat) (s : String) : List String :=
  (wrapWords width (wordsOf s)).map (fun l => String.intercalate " " l)

/-- A rendered table: the panel-header line and one row per shortcut.
The `Shortcut` struct orders the Description column first (field
attribute `order = 0`) and the Shortcut column second (`order = 1`), so
a row is (wrapped description lines, key). -/
structure RTable where
  header : String
  rows : List (List String × String)
deriving DecidableEq, Repr

/-- One row of the table for a shortcut: description wrapped at width 60
(the `Wrap::new(60)` call site, src/main.rs line 171), key verbatim. -/
def renderRow (sc : Shortcut) : List String × String :=
  (wrapLines 60 sc.description, sc.key)

/-- `display_shortcuts` (src/main.rs lines 167-177): header line
`"{category} related shortcuts"` from the `Panel::header` call, followed
by the rows in the order of the input slice.  The table text itself is
produced by the external `tabled` crate; the model keeps its structured
content (header, row order, cell contents). -/
def display_shortcuts (shortcuts : List Shortcut) (category : String) : RTable :=
  { header := category ++ " related shortcuts",
    rows := shortcuts.map renderRow }

/-! ### Category selection (`main`, src/main.rs lines 252-280) -/

/-- One `if let Some(shortcuts) = shortcuts_map.get(key) {
display_shortcuts(shortcuts, label) }` step: the registry key looked up,
the category label passed to `display_shortcuts`, and the entries
rendered — or nothing when the key is absent. -/
structure DisplayCall where
  key : String
  label : String
  entries : List Shortcut
deriving DecidableEq, Repr

/-- The call to `display_shortcuts` made for `key`/`label` if the lookup
succeeds (src/main.rs lines 184-188 and 258-280). -/
def display_call (reg : Registry) (key label : String) : List DisplayCall :=
  match List.lookup key reg with
  | some s => [⟨key, label, s⟩]
  | none => []

/-- `display_all_shortcuts` (src/main.rs lines 180-189): iterate the
fixed category order, rendering each category present in the registry
with the category name itself as the label. -/
def display_all_shortcuts (reg : Registry) : List DisplayCall :=
  (["Movement", "Edit", "History", "Process"]).flatMap
    (fun c => display_call reg c c)

/-- The sequence of `display_shortcuts` calls made by `main` on the
non-uninstall path (src/main.rs lines 252-280): all categories when no
flag is set, otherwise one call per set flag, in the fixed textual order
of `main`; the `-r`/`--recall` flag looks up key "History" but passes
label "Recall". -/
def main_calls (a : Args) (reg : Registry) : List DisplayCall :=
  if !a.movement && !a.edit && !a.recall && !a.process then
    display_all_shortcuts reg
  else
    (if a.movement then display_call reg "Movement" "Movement" else []) ++
    (if a.edit then display_call reg "Edit" "Edit" else []) ++
    (if a.recall then display_call reg "History" "Recall" else []) ++
    (if a.process then display_call reg "Process" "Process" else [])

/-! ### Uninstall routine and process model -/

/-- The filesystem state the program can affect: whether the running
executable's file still exists. -/
structure FsState where
  exeExists : Bool
deriving DecidableEq, Repr

/-- The environment the uninstall routine consults: the outcome of
`std::env::current_exe()` (either the executable's path or the I/O
error's text), the line read from standard input ("" when the stream is
at end-of-file, since `read_line` then leaves the buffer empty), and the
outcome of `fs::remove_file` (`none` = success, `some e` = failure with
cause `e`). -/
structure UninstallEnv where
  exeRes : Except String String
  inputLine : String
  removeResult : Option String
deriving Repr

/-- Modelled from the spec: Rust's `str::trim` (standard library, not
under `src/`) — remove leading and trailing whitespace characters. -/
def str_trim (s : String) : String :=
  ⟨((s.data.dropWhile Char.isWhitespace).reverse.dropWhile
      Char.isWhitespace).reverse⟩

/-- Modelled from the spec: Rust's `str::to_lowercase` (standard
library, not under `src/`) — lowercase every character.  The
confirmation words "y"/"yes" are ASCII, where `Char.toLower` agrees with
Rust's lowercasing. -/
def to_lowercase (s : String) : String :=
  ⟨s.data.map Char.toLower⟩

/-- `get_current_exe_path` (src/main.rs lines 192-195): the
`current_exe` result with the error mapped to a message prefixed
"Failed to get current executable path: ". -/
def get_current_exe_path (env : UninstallEnv) : Except String String :=
  match env.exeRes with
  | .ok p => .ok p
  | .error e => .error ("Failed to get current executable path: " ++ e)

/-- Result of `handle_uninstall`: the `Result` value (`none` = `Ok(())`,
`some e` = `Err(e)`), the filesystem afterwards, the lines written to
stdout and stderr, and whether a deletion was performed. -/
structure UResult where
  err : Option String
  fs : FsState
  stdout : List String
  stderr : List String
  deleted : Bool
deriving DecidableEq, Repr

/-- `handle_uninstall` (src/main.rs lines 198-234): resolve the
executable path (propagating failure), prompt, read one line, trim and
lowercase it; on "y"/"yes" delete the executable (reporting a failure
with its cause and a manual-removal hint and propagating it), otherwise
print "Uninstall cancelled." and succeed.  `fs::remove_file` is a std
call not under `src/`; on success the file is gone, on failure the
filesystem is untouched. -/
def handle_uninstall (env : UninstallEnv) (fs : FsState) : UResult :=
  match get_current_exe_path env with
  | .error e => { err := some e, fs := fs, stdout := [], stderr := [], deleted := false }
  | .ok exe_path =>
    let prompts := ["This will permanently delete the 'bk' binary from:",
                    "  " ++ exe_path,
                    "",
                    "Are you sure you want to uninstall? (y/N): "]
    let input := to_lowercase (str_trim env.inputLine)
    if input == "y" || input == "yes" then
      match env.removeResult with
      | none =>
        { err := none,
          fs := { exeExists := false },
          stdout := prompts ++
            ["✓ Successfully uninstalled 'bk' from " ++ exe_path,
             "Thank you for using bk!"],
          stderr := [],
          deleted := true }
      | some e =>
        { err := some e,
          fs := fs,
          stdout := prompts,
          stderr := ["✗ Failed to remove binary: " ++ e,
                     "You may need to run with elevated privileges or remove it manually."],
          deleted := false }
    else
      { err := none,
        fs := fs,
        stdout := prompts ++ ["Uninstall cancelled."],
        stderr := [],
        deleted := false }

/-- Observable outcome of one program run: exit code, filesystem
afterwards, tables printed, stdout and stderr lines. -/
structure ProcOutcome where
  exit : Nat
  fs : FsState
  tables : List RTable
  stdout : List String
  stderr : List String
deriving DecidableEq, Repr

/-- `main` after successful argument parsing (src/main.rs lines
236-281): when `--uninstall` is set, run `handle_uninstall` — on `Err`
print "Error during uninstall: ..." and exit 1, else exit 0 — and
return without rendering; otherwise render the selected categories of
`init_shortcuts` and exit 0. -/
def mainRun (a : Args) (env : UninstallEnv) (fs : FsState) : ProcOutcome :=
  if a.uninstall then
    let r := handle_uninstall env fs
    match r.err with
    | some e =>
      { exit := 1, fs := r.fs, tables := [],
        stdout := r.stdout,
        stderr := r.stderr ++ ["Error during uninstall: " ++ e] }
    | none =>
      { exit := 0, fs := r.fs, tables := [],
        stdout := r.stdout, stderr := r.stderr }
  else
    { exit := 0, fs := fs,
      tables := (main_calls a init_shortcuts).map
        (fun c => display_shortcuts c.entries c.label),
      stdout := [], stderr := [] }

/-- The outcome of `Args::parse()`: either a parsed flag record or a
usage error (unknown flag, a value given to a flag, or a positional
argument — the clap-generated parser accepts none of these). -/
inductive ParseOutcome where
  | parsed (a : Args)
  | usageError
deriving DecidableEq, Repr

/-- Modelled from the spec: the clap-generated argument parser's
process-level behaviour is not under `src/` (only the `Args` declaration
and the `Args::parse()` call are).  Per the spec, a bad argument is
"rejected with a usage error and non-zero exit" and the exit code on any
error is 1; a successful parse continues into `mainRun`. -/
def processRun (p : ParseOutcome) (env : UninstallEnv) (fs : FsState) : ProcOutcome :=
  match p with
  | .usageError =>
    { exit := 1, fs := fs, tables := [], stdout := [], stderr := [] }
  | .parsed a => mainRun a env fs

/-- Spec-side error predicate for the exit-code claim: a run is an error
run exactly when parsing failed, the executable path could not be
resolved during uninstall, or an affirmatively confirmed deletion
failed. -/
def isErrorRun (p : ParseOutcome) (env : UninstallEnv) : Bool :=
  match p with
  | .usageError => true
  | .parsed a =>
    a.uninstall &&
      (match env.exeRes with
       | .error _ => true
       | .ok _ =>
         (let input := to_lowercase (str_trim env.inputLine)
          (input == "y" || input == "yes") && env.removeResult.isSome))

/-- State-passing form of the `display_shortcuts(shortcuts, category)`
call made while the registry is in scope: the Rust function takes its
slice by shared borrow and has no access path that could mutate the
registry, so the registry component of the state is returned as it
came. -/
def display_shortcuts_st (reg : Registry) (shortcuts : List Shortcut)
    (category : String) : RTable × Registry :=
  (display_shortcuts shortcuts category, reg)

/-! ## Theorems -/

/-- C1: for every assignment of the four category flags, the categories
rendered are exactly those whose flag is true — all four when every flag
is false — always in the canonical registry order Movement, Edit,
Recall/History, Process.  The flags enter as a record, so two command
lines setting the same flags in different orders (`-m -e` vs `-e -m`)
give the same `Args` value and hence identical output. -/
theorem selected_categories_correct (a : Args) :
    (main_calls a init_shortcuts).map DisplayCall.key =
      (if a.movement = false ∧ a.edit = false ∧ a.«recall» = false ∧
          a.process = false
       then ["Movement", "Edit", "History", "Process"]
       else ["Movement", "Edit", "History", "Process"].filter
         (fun k => (k == "Movement" && a.movement) || (k == "Edit" && a.edit) ||
                   (k == "History" && a.«recall») ||
                   (k == "Process" && a.process))) := by
  rcases a with ⟨m, e, r, p, u⟩
  cases m <;> cases e <;> cases r <;> cases p <;> rfl

/-- C2: the process exits 0 on success (including a cancelled uninstall)
and 1 exactly on the error runs: a usage error from argument parsing, a
failed executable-path resolution during uninstall, or a failed deletion
after an affirmative confirmation. -/
theorem exit_codes (p : ParseOutcome) (env : UninstallEnv) (fs : FsState) :
    (processRun p env fs).exit = if isErrorRun p env then 1 else 0 := by
  cases p with
  | usageError => rfl
  | parsed a =>
    cases ha : a.uninstall with
    | false => simp [processRun, mainRun, isErrorRun, ha]
    | true =>
      cases henv : env.exeRes with
      | error e =>
        simp [processRun, mainRun, isErrorRun, handle_uninstall,
          get_current_exe_path, ha, henv]
      | ok path =>
        cases hin : (to_lowercase (str_trim env.inputLine) == "y" ||
            to_lowercase (str_trim env.inputLine) == "yes") <;>
          cases hrem : env.removeResult <;>
            simp [processRun, mainRun, isErrorRun, handle_uninstall,
              get_current_exe_path, ha, henv, hin, hrem]

/-- C3: during uninstall, any confirmation line whose trimmed, lowercased
form is neither "y" nor "yes" causes no deletion, leaves the filesystem
untouched, and the process exits 0. -/
theorem declined_confirmation (a : Args) (env : UninstallEnv) (fs : FsState)
    (exe : String) (hu : a.uninstall = true) (hres : env.exeRes = .ok exe)
    (h1 : to_lowercase (str_trim env.inputLine) ≠ "y")
    (h2 : to_lowercase (str_trim env.inputLine) ≠ "yes") :
    (handle_uninstall env fs).deleted = false ∧
    (handle_uninstall env fs).fs = fs ∧
    (mainRun a env fs).exit = 0 := by
  have hc : (to_lowercase (str_trim env.inputLine) == "y" ||
      to_lowercase (str_trim env.inputLine) == "yes") = false := by
    simp [h1, h2]
  refine ⟨?_, ?_, ?_⟩ <;>
    simp [handle_uninstall, get_current_exe_path, hres, mainRun, hu, hc]

/-- Witness for C3 at the concrete declined input "n". -/
theorem declined_confirmation_witness :
    (handle_uninstall ⟨.ok "/usr/local/bin/bk", "n", none⟩ ⟨true⟩).deleted = false ∧
    (handle_uninstall ⟨.ok "/usr/local/bin/bk", "n", none⟩ ⟨true⟩).fs = ⟨true⟩ ∧
    (mainRun ⟨false, false, false, false, true⟩
      ⟨.ok "/usr/local/bin/bk", "n", none⟩ ⟨true⟩).exit = 0 :=
  declined_confirmation ⟨false, false, false, false, true⟩
    ⟨.ok "/usr/local/bin/bk", "n", none⟩ ⟨true⟩ "/usr/local/bin/bk"
    rfl rfl (by decide) (by decide)

/-- C4: during uninstall with an affirmative confirmation — if deletion
succeeds the executable file no longer exists and the success message is
printed (exit 0); if deletion fails the filesystem is unchanged, the
failure is reported with its cause and the elevated-privileges hint, and
the process exits 1. -/
theorem affirmative_uninstall (a : Args) (env : UninstallEnv) (fs : FsState)
    (exe : String) (hu : a.uninstall = true) (hres : env.exeRes = .ok exe)
    (haff : to_lowercase (str_trim env.inputLine) = "y" ∨
      to_lowercase (str_trim env.inputLine) = "yes") :
    (env.removeResult = none →
      (mainRun a env fs).fs.exeExists = false ∧
      ("✓ Successfully uninstalled 'bk' from " ++ exe) ∈ (mainRun a env fs).stdout ∧
      (mainRun a env fs).exit = 0) ∧
    (∀ e, env.removeResult = some e →
      (mainRun a env fs).fs = fs ∧
      ("✗ Failed to remove binary: " ++ e) ∈ (mainRun a env fs).stderr ∧
      "You may need to run with elevated privileges or remove it manually." ∈
        (mainRun a env fs).stderr ∧
      (mainRun a env fs).exit = 1) := by
  have hc : (to_lowercase (str_trim env.inputLine) == "y" ||
      to_lowercase (str_trim env.inputLine) == "yes") = true := by
    rcases haff with h | h <;> simp [h]
  constructor
  · intro hrem
    refine ⟨?_, ?_, ?_⟩ <;>
      simp [mainRun, hu, handle_uninstall, get_current_exe_path, hres, hc, hrem]
  · intro e hrem
    refine ⟨?_, ?_, ?_, ?_⟩ <;>
      simp [mainRun, hu, handle_uninstall, get_current_exe_path, hres, hc, hrem]

/-- Witness for C4 at the concrete affirmative input " YES\n" (exercising
trimming and case-insensitivity) with a succeeding deletion. -/
theorem affirmative_uninstall_witness :
    ((⟨.ok "/usr/local/bin/bk", " YES\n", none⟩ : UninstallEnv).removeResult = none →
      (mainRun ⟨false, false, false, false, true⟩
        ⟨.ok "/usr/local/bin/bk", " YES\n", none⟩ ⟨true⟩).fs.exeExists = false ∧
      ("✓ Successfully uninstalled 'bk' from " ++ "/usr/local/bin/bk") ∈
        (mainRun ⟨false, false, false, false, true⟩
          ⟨.ok "/usr/local/bin/bk", " YES\n", none⟩ ⟨true⟩).stdout ∧
      (mainRun ⟨false, false, false, false, true⟩
        ⟨.ok "/usr/local/bin/bk", " YES\n", none⟩ ⟨true⟩).exit = 0) ∧
    (∀ e, (⟨.ok "/usr/local/bin/bk", " YES\n", none⟩ : UninstallEnv).removeResult = some e →
      (mainRun ⟨false, false, false, false, true⟩
        ⟨.ok "/usr/local/bin/bk", " YES\n", none⟩ ⟨true⟩).fs = ⟨true⟩ ∧
      ("✗ Failed to remove binary: " ++ e) ∈
        (mainRun ⟨false, false, false, false, true⟩
          ⟨.ok "/usr/local/bin/bk", " YES\n", none⟩ ⟨true⟩).stderr ∧
      "You may need to run with elevated privileges or remove it manually." ∈
        (mainRun ⟨false, false, false, false, true⟩
          ⟨.ok "/usr/local/bin/bk", " YES\n", none⟩ ⟨true⟩).stderr ∧
      (mainRun ⟨false, false, false, false, true⟩
        ⟨.ok "/usr/local/bin/bk", " YES\n", none⟩ ⟨true⟩).exit = 1) :=
  affirmative_uninstall ⟨false, false, false, false, true⟩
    ⟨.ok "/usr/local/bin/bk", " YES\n", none⟩ ⟨true⟩ "/usr/local/bin/bk"
    rfl rfl (Or.inr (by decide))

/-- C5: when `--uninstall` is given (with or without category flags), the
uninstall routine runs and no shortcut tables are rendered. -/
theorem uninstall_precedence (a : Args) (env : UninstallEnv) (fs : FsState)
    (hu : a.uninstall = true) :
    (mainRun a env fs).tables = [] ∧
    (mainRun a env fs).stdout = (handle_uninstall env fs).stdout ∧
    (mainRun a env fs).fs = (handle_uninstall env fs).fs := by
  cases h : (handle_uninstall env fs).err <;> simp [mainRun, hu, h]

/-- Witness for C5 with `--uninstall` combined with `-m -e`. -/
theorem uninstall_precedence_witness :
    (mainRun ⟨true, true, false, false, true⟩
      ⟨.ok "/usr/local/bin/bk", "n", none⟩ ⟨true⟩).tables = [] ∧
    (mainRun ⟨true, true, false, false, true⟩
      ⟨.ok "/usr/local/bin/bk", "n", none⟩ ⟨true⟩).stdout =
      (handle_uninstall ⟨.ok "/usr/local/bin/bk", "n", none⟩ ⟨true⟩).stdout ∧
    (mainRun ⟨true, true, false, false, true⟩
      ⟨.ok "/usr/local/bin/bk", "n", none⟩ ⟨true⟩).fs =
      (handle_uninstall ⟨.ok "/usr/local/bin/bk", "n", none⟩ ⟨true⟩).fs :=
  uninstall_precedence ⟨true, true, false, false, true⟩
    ⟨.ok "/usr/local/bin/bk", "n", none⟩ ⟨true⟩ rfl

/-- C6: the registry builder takes no input, is deterministic (two runs
yield identical content), its keys are the four fixed categories in
declaration order, and every category's entry list is non-empty. -/
theorem init_shortcuts_wellformed :
    (init_shortcuts = init_shortcuts) ∧
    (init_shortcuts.map Prod.fst = ["Movement", "Edit", "History", "Process"]) ∧
    (∀ kv ∈ init_shortcuts, kv.2 ≠ []) :=
  ⟨rfl, rfl, by decide⟩

/-- C7: rendering the same category (same name, same entry list) twice
produces identical output, and a rendering call leaves the registry
exactly as it was. -/
theorem rendering_pure (shortcuts : List Shortcut) (category : String)
    (reg : Registry) :
    display_shortcuts shortcuts category = display_shortcuts shortcuts category ∧
    (display_shortcuts_st reg shortcuts category).2 = reg ∧
    (display_shortcuts_st reg shortcuts category).1 =
      display_shortcuts shortcuts category :=
  ⟨rfl, rfl, rfl⟩

-- Helper lemmas for C8: the greedy keep-words wrapper loses no word,
-- splits no word, and keeps multi-word lines within the width.

theorem wrapGo_flatten (width : Nat) (ws : List String) :
    ∀ (cur : List String) (curLen : Nat),
      (wrapGo width cur curLen ws).flatten = cur ++ ws := by
  induction ws with
  | nil => intro cur curLen; simp [wrapGo]
  | cons w ws ih =>
    intro cur curLen
    simp only [wrapGo]
    split
    · rw [ih]; simp
    · simp [ih]

theorem wrapWords_flatten (width : Nat) (ws : List String) :
    (wrapWords width ws).flatten = ws := by
  cases ws with
  | nil => rfl
  | cons w ws => simpa using wrapGo_flatten width ws [w] w.length

theorem lineLen_append (l : List String) (w : String) (h : l ≠ []) :
    lineLen (l ++ [w]) = lineLen l + 1 + w.length := by
  have hl : 1 ≤ l.length := List.length_pos.mpr h
  unfold lineLen
  rw [List.map_append, List.sum_append, List.length_append]
  simp
  omega

theorem wrapGo_width (width : Nat) (ws : List String) :
    ∀ (cur : List String) (curLen : Nat), cur ≠ [] → curLen = lineLen cur →
      (2 ≤ cur.length → curLen ≤ width) →
      ∀ l ∈ wrapGo width cur curLen ws, 2 ≤ l.length → lineLen l ≤ width := by
  induction ws with
  | nil =>
    intro cur curLen hne hlen hbound l hl h2
    simp [wrapGo] at hl
    subst hl
    exact hlen ▸ hbound h2
  | cons w ws ih =>
    intro cur curLen hne hlen hbound l hl h2
    simp only [wrapGo] at hl
    split at hl
    · rename_i hfit
      refine ih (cur ++ [w]) _ (by simp) ?_ ?_ l hl h2
      · rw [lineLen_append cur w hne, hlen]
      · intro _; exact hfit
    · rcases List.mem_cons.mp hl with h | h
      · subst h; exact hlen ▸ hbound h2
      · refine ih [w] w.length (by simp) ?_ ?_ l h h2
        · simp [lineLen]
        · intro h2'; simp at h2'

theorem wrapWords_width (width : Nat) (ws : List String) :
    ∀ l ∈ wrapWords width ws, 2 ≤ l.length → lineLen l ≤ width := by
  cases ws with
  | nil => intro l hl; simp [wrapWords] at hl
  | cons w ws =>
    intro l hl h2
    exact wrapGo_width width ws [w] w.length (by simp) (by simp [lineLen])
      (by intro h; simp at h) l hl h2

/-- C8: every rendered row carries its entry's trigger verbatim; rows
appear in registry order with none dropped (the row list is the `map` of
the entry list); the description cell is the word-wrap of the
description at width 60 — the wrapped lines' words flatten back to the
description's words exactly (verbatim modulo wrapping whitespace, no
word broken, no word lost), and any line holding two or more words fits
in the width. -/
theorem display_shortcuts_faithful (shortcuts : List Shortcut)
    (category : String) :
    ((display_shortcuts shortcuts category).rows.map Prod.snd =
      shortcuts.map Shortcut.key) ∧
    ((display_shortcuts shortcuts category).rows.map Prod.fst =
      shortcuts.map (fun sc => wrapLines 60 sc.description)) ∧
    (∀ sc ∈ shortcuts,
      (wrapWords 60 (wordsOf sc.description)).flatten = wordsOf sc.description) ∧
    (∀ sc ∈ shortcuts, ∀ l ∈ wrapWords 60 (wordsOf sc.description),
      2 ≤ l.length → lineLen l ≤ 60) := by
  refine ⟨?_, ?_, ?_, ?_⟩
  · simp [display_shortcuts, renderRow, List.map_map]
  · simp [display_shortcuts, renderRow, List.map_map]
  · intro sc _
    exact wrapWords_flatten 60 (wordsOf sc.description)
  · intro sc _ l hl h2
    exact wrapWords_width 60 (wordsOf sc.description) l hl h2

/-- C9: the registry's keys are exactly "Movement", "Edit", "History",
"Process" (no "Recall" key); the recall/history category renders with
header label "History" when no flags are given but "Recall" when
selected via `-r`, so the no-flag header list differs from the all-flag
header list at that position. -/
theorem history_recall_label_mismatch (env : UninstallEnv) (fs : FsState) :
    (init_shortcuts.map Prod.fst = ["Movement", "Edit", "History", "Process"]) ∧
    (List.lookup "Recall" init_shortcuts = none) ∧
    ((main_calls ⟨false, false, false, false, false⟩ init_shortcuts).map
        DisplayCall.label = ["Movement", "Edit", "History", "Process"]) ∧
    ((main_calls ⟨true, true, true, true, false⟩ init_shortcuts).map
        DisplayCall.label = ["Movement", "Edit", "Recall", "Process"]) ∧
    ((mainRun ⟨false, false, false, false, false⟩ env fs).tables =
      (main_calls ⟨false, false, false, false, false⟩ init_shortcuts).map
        (fun c => display_shortcuts c.entries c.label)) ∧
    ((mainRun ⟨true, true, true, true, false⟩ env fs).tables =
      (main_calls ⟨true, true, true, true, false⟩ init_shortcuts).map
        (fun c => display_shortcuts c.entries c.label)) ∧
    ((main_calls ⟨false, false, false, false, false⟩ init_shortcuts).map
        (fun c => (display_shortcuts c.entries c.label).header) ≠
      (main_calls ⟨true, true, true, true, false⟩ init_shortcuts).map
        (fun c => (display_shortcuts c.entries c.label).header)) := by
  refine ⟨rfl, rfl, rfl, rfl, rfl, rfl, ?_⟩
  decide

/-- C10: an empty read at the confirmation prompt (standard input at
end-of-stream leaves the buffer empty) is treated as a declined
confirmation: no deletion, filesystem untouched, exit 0. -/
theorem eof_read_cancels (a : Args) (env : UninstallEnv) (fs : FsState)
    (exe : String) (hu : a.uninstall = true) (hres : env.exeRes = .ok exe)
    (hin : env.inputLine = "") :
    (handle_uninstall env fs).deleted = false ∧
    (handle_uninstall env fs).fs = fs ∧
    (mainRun a env fs).exit = 0 := by
  have hc : (to_lowercase (str_trim env.inputLine) == "y" ||
      to_lowercase (str_trim env.inputLine) == "yes") = false := by
    rw [hin]; decide
  refine ⟨?_, ?_, ?_⟩ <;>
    simp [handle_uninstall, get_current_exe_path, hres, mainRun, hu, hc]

/-- Witness for C10 at the concrete empty input. -/
theorem eof_read_cancels_witness :
    (handle_uninstall ⟨.ok "/usr/local/bin/bk", "", none⟩ ⟨true⟩).deleted = false ∧
    (handle_uninstall ⟨.ok "/usr/local/bin/bk", "", none⟩ ⟨true⟩).fs = ⟨true⟩ ∧
    (mainRun ⟨false, false, false, false, true⟩
      ⟨.ok "/usr/local/bin/bk", "", none⟩ ⟨true⟩).exit = 0 :=
  eof_read_cancels ⟨false, false, false, false, true⟩
    ⟨.ok "/usr/local/bin/bk", "", none⟩ ⟨true⟩ "/usr/local/bin/bk" rfl rfl rfl

end BK
